import Mathlib

/-!
Verification of the AI Toolbox backend (`main.py`): the recommendation
scorer (`recommend_tools`), the list endpoint's filter builder and
free-text search (`list_tools`), and the error-handling boundary of the
three `/api` handlers.

Embedding conventions:
* Python `str` is Lean `String`; string operations are implemented over
  the character list `String.data` so that every definition evaluates by
  kernel reduction. `str.lower()` is ASCII lowering via `Char.toLower`
  (which covers every string the claims exercise); `word in hay`
  (contiguous substring) is `List.IsInfix` (`<:+:`) on character data;
  `str.split()` with no argument splits on whitespace runs and discards
  empty pieces.
* Scores are tiny, so Python `int` is `Int` directly (no overflow).
* `schemas.Tool` is not under `src/`; the `Tool` record below is
  modelled from the spec's data model. The store gateway (`database.py`)
  is external: handlers are parametrised by the store's response, and
  the store's filter semantics are modelled from the spec.
-/

/-- Modelled from the spec: the `Tool` entity of `schemas.py` (absent from
`src/`): name, description, tags, categories, pricing, use_cases; the
store-assigned identifier is stripped before re-hydration and is omitted. -/
structure Tool where
  name : String
  description : String
  tags : List String
  categories : List String
  pricing : String
  use_cases : List String
deriving DecidableEq

/-- Python `s.lower()`: per-character lowering. -/
def pyLower (s : String) : String :=
  ⟨s.data.map Char.toLower⟩

/-- Python `needle in hay` for strings: contiguous-substring test. -/
def strContains (hay needle : String) : Bool :=
  decide (needle.data <:+: hay.data)

/-- Accumulator loop behind `pySplit`: `acc` holds the reversed current
word; a whitespace character closes the current word (if nonempty). -/
def pySplitAux : List Char → List Char → List String
  | [], acc => if acc.isEmpty then [] else [⟨acc.reverse⟩]
  | c :: cs, acc =>
    if c.isWhitespace then
      if acc.isEmpty then pySplitAux cs [] else (⟨acc.reverse⟩ : String) :: pySplitAux cs []
    else pySplitAux cs (c :: acc)

/-- Python `s.split()` with no argument: split on whitespace runs,
discarding empty pieces. -/
def pySplit (s : String) : List String :=
  pySplitAux s.data []

/-- Python `' '.join(parts)`. -/
def joinSpace (parts : List String) : List Char :=
  List.intercalate [' '] (parts.map String.data)

/-- The haystack of `recommend_tools` line 125:
`f"{tool.name} {tool.description} {' '.join(tool.tags)} {' '.join(tool.use_cases)}".lower()`. -/
def haystack (tool : Tool) : String :=
  pyLower ⟨tool.name.data ++ [' '] ++ tool.description.data ++ [' ']
    ++ joinSpace tool.tags ++ [' '] ++ joinSpace tool.use_cases⟩

/-- The per-word test of `recommend_tools` line 127:
`len(word) > 2 and word in hay`. -/
def kwHit (tool : Tool) (word : String) : Bool :=
  decide (2 < word.length) && strContains (haystack tool) word

/-- The keyword loop of `recommend_tools` lines 126-128, run over a given
enumeration of the word set: each hit adds 2 to the score. -/
def keywordScoreOver (words : List String) (tool : Tool) : Int :=
  words.foldl (fun score w => if kwHit tool w then score + 2 else score) 0

/-- Lines 120 and 126: `t = task.lower()` and `for word in set(t.split())`.
`tLower` is the already-lowered task. A Python `set` enumerates each
distinct word exactly once, in an unspecified order; `List.dedup` is one
such enumeration, and `keywordScoreOver` is order-invariant (proved below). -/
def keywordScore (tLower : String) (tool : Tool) : Int :=
  keywordScoreOver (pySplit tLower).dedup tool

/-- The category-match test of line 131:
`any(c.lower() in (cat.lower() for cat in tool.categories) for c in categories)` —
some requested category equals some tool category case-insensitively. -/
def categoryMatch (categories : List String) (tool : Tool) : Bool :=
  categories.any (fun c => tool.categories.any (fun cat => pyLower cat == pyLower c))

/-- Lines 130-134: the category boost. `if categories:` is Python
truthiness, so `None` and the empty list both skip the branch. -/
def categoryAdj (categories : Option (List String)) (tool : Tool) : Int :=
  match categories with
  | none => 0
  | some [] => 0
  | some (c :: cs) => if categoryMatch (c :: cs) tool then 3 else -1

/-- Lines 135-137: `if budget and tool.pricing == budget: score += 2`.
`if budget` is Python truthiness, so `None` and `""` both skip the branch;
the pricing comparison is case-sensitive string equality. -/
def budgetAdj (budget : Option String) (tool : Tool) : Int :=
  match budget with
  | none => 0
  | some b => if b ≠ "" ∧ tool.pricing = b then 2 else 0

/-- The full per-tool score of `recommend_tools` lines 120-137. -/
def scoreTool (task : String) (categories : Option (List String))
    (budget : Option String) (tool : Tool) : Int :=
  keywordScore (pyLower task) tool + categoryAdj categories tool + budgetAdj budget tool

/-- Line 138: the `(score, tool)` pairs, in fetch order. -/
def scoredList (fetched : List Tool) (task : String)
    (categories : Option (List String)) (budget : Option String) :
    List (Int × Tool) :=
  fetched.map (fun tool => (scoreTool task categories budget tool, tool))

/-- Stable descending insertion: `x` goes after every earlier pair with a
strictly greater score and before every pair with score ≤ its own. -/
def insertDesc (x : Int × Tool) : List (Int × Tool) → List (Int × Tool)
  | [] => [x]
  | y :: ys => if x.1 < y.1 then y :: insertDesc x ys else x :: y :: ys

/-- Line 139: `scored.sort(key=lambda x: x[0], reverse=True)`. Python's
sort is stable, and with `reverse=True` equal-key elements still keep
their original relative order; a stable descending sort is determined as
a function by being a permutation, sorted descending, and score-class
preserving (all proved below), so this insertion sort computes the same
list as Python's Timsort. -/
def sortDescByScore : List (Int × Tool) → List (Int × Tool)
  | [] => []
  | x :: xs => insertDesc x (sortDescByScore xs)

/-- Lines 113-140 of `recommend_tools`, as a function of the fetched
tools: score, stable-sort descending, return the first 10 tools. -/
def recommendTools (fetched : List Tool) (task : String)
    (categories : Option (List String)) (budget : Option String) : List Tool :=
  ((sortDescByScore (scoredList fetched task categories budget)).take 10).map Prod.snd

/-- The store filter built by `list_tools` lines 83-87: an optional
`categories $in` clause and an optional `pricing` equality clause. -/
structure MongoFilter where
  categoriesIn : Option (List String)
  pricingEq : Option String
deriving DecidableEq

/-- The `{}` filter of lines 83 and 114. -/
def emptyFilter : MongoFilter :=
  { categoriesIn := none, pricingEq := none }

/-- Lines 83-87 of `list_tools`: start from `{}`; `if category:` adds
`{"categories": {"$in": [category]}}`; `if pricing:` adds
`{"pricing": pricing}`. Both tests are Python truthiness, so `None` and
`""` both leave the filter untouched. -/
def buildMongoFilter (category pricing : Option String) : MongoFilter :=
  { categoriesIn :=
      match category with
      | none => none
      | some c => if c = "" then none else some [c]
    pricingEq :=
      match pricing with
      | none => none
      | some p => if p = "" then none else some p }

/-- Modelled from the spec: the document store (`database.py`, absent from
`src/`) is an external collaborator; per the spec, a `categories $in`
clause matches documents whose `categories` sequence contains the value
(exact, case-sensitive), and a `pricing` clause matches documents whose
`pricing` equals the value exactly; an empty filter matches every
document. -/
def filterMatches (f : MongoFilter) (tool : Tool) : Bool :=
  (match f.categoriesIn with
   | none => true
   | some cs => cs.any (fun c => tool.categories.contains c))
  && (match f.pricingEq with
      | none => true
      | some p => tool.pricing == p)

/-- The per-tool text-match test of `list_tools` lines 97-101, with
`qLower` the already-lowered query: the query is a substring of the
lowered name, or of the lowered description, or of some lowered tag. -/
def matchesQuery (qLower : String) (t : Tool) : Bool :=
  strContains (pyLower t.name) qLower
    || strContains (pyLower t.description) qLower
    || t.tags.any (fun tag => strContains (pyLower tag) qLower)

/-- Lines 95-101 of `list_tools`: `if q:` (Python truthiness, so `None`
and `""` both skip filtering), then keep the tools matching the lowered
query. -/
def applyTextSearch (q : Option String) (tools : List Tool) : List Tool :=
  match q with
  | none => tools
  | some s => if s = "" then tools else tools.filter (matchesQuery (pyLower s))

/-- An HTTP error as raised by `HTTPException(status_code=..., detail=...)`. -/
structure HttpError where
  status : Nat
  detail : String
deriving DecidableEq

/-- Lines 67-73, `add_tool`: forward the store's `create_document` result;
any exception `e` (modelled as `Except.error`, carrying `str(e)`) becomes
`HTTPException(500, str(e))`. -/
def addToolHandler (createResult : Except String String) : Except HttpError String :=
  match createResult with
  | .ok toolId => .ok toolId
  | .error e => .error { status := 500, detail := e }

/-- Lines 75-104, `list_tools`, as a function of the store gateway
(`store filter limit` is `get_documents("tool", filter, limit=limit)`,
returning the fetched tools or the raised exception's message): build the
filter, fetch, apply the text search; any store exception becomes
`HTTPException(500, str(e))` and nothing else is returned. -/
def listToolsHandler (store : MongoFilter → Nat → Except String (List Tool))
    (q category pricing : Option String) (limit : Nat) :
    Except HttpError (List Tool) :=
  match store (buildMongoFilter category pricing) limit with
  | .error e => .error { status := 500, detail := e }
  | .ok tools => .ok (applyTextSearch q tools)

/-- Lines 106-142, `recommend_tools`, as a function of the store gateway:
fetch with the empty filter and limit 200 (line 114), rank with
`recommendTools`; any store exception becomes `HTTPException(500, str(e))`
and nothing else is returned. -/
def recommendHandler (store : MongoFilter → Nat → Except String (List Tool))
    (task : String) (categories : Option (List String)) (budget : Option String) :
    Except HttpError (List Tool) :=
  match store emptyFilter 200 with
  | .error e => .error { status := 500, detail := e }
  | .ok fetched => .ok (recommendTools fetched task categories budget)

example : pySplit ("  hello   world ") = ["hello", "world"] := by decide
example : strContains ("abcdef") ("cde") = true := by decide
example : strContains ("abcdef") ("ce") = false := by decide
example : keywordScore ("summarize pdf pdf a")
  { name := "PDF Summarizer", description := "summarize pdf documents",
    tags := ["pdf", "summary"], categories := ["productivity"],
    pricing := "freemium", use_cases := [] } = 4 := by decide

/-- Concrete sample tool (the spec's recommendation example). -/
def pdfTool : Tool :=
  { name := "PDF Summarizer", description := "summarize pdf documents",
    tags := ["pdf", "summary"], categories := ["productivity"],
    pricing := "freemium", use_cases := ["summarize pdf"] }

/-- Concrete sample tool with categories `["coding"]` (the spec's
category-penalty example). -/
def codingTool : Tool :=
  { name := "CodeHelper", description := "helps you write code",
    tags := [], categories := ["coding"], pricing := "paid",
    use_cases := [] }

/-- A store gateway whose fetch succeeds with exactly one tool. -/
def oneToolStore : MongoFilter → Nat → Except String (List Tool) :=
  fun _ _ => .ok [codingTool]

/-- A store gateway whose every call raises. -/
def failingStore : MongoFilter → Nat → Except String (List Tool) :=
  fun _ _ => .error ("database is down")

/-! ## Helper lemmas -/

/-- The keyword loop adds 2 for every hit: running it from any
accumulator adds twice the hit count. -/
theorem keywordScoreOver_loop (tool : Tool) (words : List String) (acc : Int) :
    words.foldl (fun score w => if kwHit tool w then score + 2 else score) acc
      = acc + 2 * (words.countP (kwHit tool) : Int) := by
  induction words generalizing acc with
  | nil => simp
  | cons w ws ih =>
    simp only [List.foldl_cons, List.countP_cons, ih]
    by_cases h : kwHit tool w = true
    · simp [h]; ring
    · simp [h]

/-- The keyword score is twice the number of hit words. -/
theorem keywordScoreOver_eq (tool : Tool) (words : List String) :
    keywordScoreOver words tool = 2 * (words.countP (kwHit tool) : Int) := by
  simpa [keywordScoreOver] using keywordScoreOver_loop tool words 0

/-- Counting hits in a deduplicated word list is counting the hit words
of the word set. -/
theorem countP_dedup_eq_card_filter (l : List String) (P : String → Prop)
    [DecidablePred P] :
    l.dedup.countP (fun w => decide (P w)) = (l.toFinset.filter P).card := by
  rw [List.toFinset, Finset.card, Finset.filter_val, Multiset.toFinset_val]
  rw [List.countP_eq_length_filter, Multiset.coe_dedup, Multiset.filter_coe,
    Multiset.coe_card]

/-- Inserting is a permutation: `insertDesc x l` has exactly `x` and the
elements of `l`. -/
theorem insertDesc_perm (x : Int × Tool) (l : List (Int × Tool)) :
    (insertDesc x l).Perm (x :: l) := by
  induction l with
  | nil => simp [insertDesc]
  | cons y ys ih =>
    simp only [insertDesc]
    by_cases h : x.1 < y.1
    · rw [if_pos h]
      exact (List.Perm.cons y ih).trans (List.Perm.swap x y ys)
    · rw [if_neg h]

/-- The sort is a permutation of its input: no tool is dropped or added. -/
theorem sortDescByScore_perm (l : List (Int × Tool)) :
    (sortDescByScore l).Perm l := by
  induction l with
  | nil => simp [sortDescByScore]
  | cons x xs ih =>
    exact (insertDesc_perm x (sortDescByScore xs)).trans (List.Perm.cons x ih)

/-- Inserting into a descending-sorted list keeps it descending-sorted. -/
theorem insertDesc_pairwise (x : Int × Tool) (l : List (Int × Tool))
    (hl : l.Pairwise (fun a b => b.1 ≤ a.1)) :
    (insertDesc x l).Pairwise (fun a b => b.1 ≤ a.1) := by
  induction l with
  | nil => simp [insertDesc]
  | cons y ys ih =>
    rw [List.pairwise_cons] at hl
    obtain ⟨hy, hys⟩ := hl
    simp only [insertDesc]
    by_cases h : x.1 < y.1
    · rw [if_pos h, List.pairwise_cons]
      refine ⟨fun z hz => ?_, ih hys⟩
      rcases List.mem_cons.mp ((insertDesc_perm x ys).mem_iff.mp hz) with rfl | hz
      · exact le_of_lt h
      · exact hy z hz
    · rw [if_neg h, List.pairwise_cons]
      refine ⟨fun z hz => ?_, List.pairwise_cons.mpr ⟨hy, hys⟩⟩
      rcases List.mem_cons.mp hz with rfl | hz
      · exact le_of_not_lt h
      · exact le_trans (hy z hz) (le_of_not_lt h)

/-- The sort's output is descending in the score. -/
theorem sortDescByScore_pairwise (l : List (Int × Tool)) :
    (sortDescByScore l).Pairwise (fun a b => b.1 ≤ a.1) := by
  induction l with
  | nil => simp [sortDescByScore]
  | cons x xs ih => exact insertDesc_pairwise x (sortDescByScore xs) ih

/-- Inserting into a descending-sorted list puts the new pair before
every pair of its own score class, so within a score class the filtered
sublist is the element-followed-by-old-class. -/
theorem insertDesc_filter (x : Int × Tool) (l : List (Int × Tool))
    (hl : l.Pairwise (fun a b => b.1 ≤ a.1)) (s : Int) :
    (insertDesc x l).filter (fun y => y.1 == s)
      = ((x :: l).filter (fun y => y.1 == s)) := by
  induction l with
  | nil => rfl
  | cons y ys ih =>
    rw [List.pairwise_cons] at hl
    obtain ⟨hy, hys⟩ := hl
    simp only [insertDesc]
    by_cases h : x.1 < y.1
    · rw [if_pos h]
      simp only [List.filter_cons]
      by_cases hx : x.1 = s
      · have hyne : ¬(y.1 = s) := by
          intro hyeq
          rw [hx] at h
          rw [hyeq] at h
          exact lt_irrefl s h
        simp only [hx, hyne, beq_iff_eq, if_true, if_false, decide_eq_true_eq]
        simpa [List.filter_cons, hx, hyne] using ih hys
      · by_cases hy2 : y.1 = s
        · simp only [beq_iff_eq, hx, hy2, if_true, if_false]
          simpa [List.filter_cons, hx] using congrArg (List.cons y) (ih hys)
        · simp only [beq_iff_eq, hx, hy2, if_false]
          simpa [List.filter_cons, hx, hy2] using ih hys
    · rw [if_neg h]

/-- Score classes survive sorting unchanged: the tools having any fixed
score appear in the sorted list exactly as they appeared in the input. -/
theorem sortDescByScore_filter (l : List (Int × Tool)) (s : Int) :
    (sortDescByScore l).filter (fun y => y.1 == s)
      = l.filter (fun y => y.1 == s) := by
  induction l with
  | nil => rfl
  | cons x xs ih =>
    simp only [sortDescByScore]
    rw [insertDesc_filter x (sortDescByScore xs) (sortDescByScore_pairwise xs) s]
    simp only [List.filter_cons, ih]

/-! ## Claim theorems -/

/-- C1: for every tool and task, the task is lower-cased and split on
whitespace into a set of unique words, and each word of length strictly
greater than 2 occurring as a substring of the tool's haystack adds
exactly 2 to the score; repeated task words add nothing extra, and words
of length at most 2 add nothing: the keyword component of the score is
twice the cardinality of the set of qualifying words. -/
theorem claim_keyword_scoring (task : String) (cats : Option (List String))
    (budget : Option String) (tool : Tool) :
    scoreTool task cats budget tool
      = 2 * (((pySplit (pyLower task)).toFinset.filter
            (fun w => 2 < w.length ∧ w.data <:+: (haystack tool).data)).card : Int)
        + categoryAdj cats tool + budgetAdj budget tool := by
  have hP : (fun w => decide (2 < w.length ∧ w.data <:+: (haystack tool).data))
      = kwHit tool := by
    funext w
    simp [kwHit, strContains, Bool.decide_and]
  rw [scoreTool, keywordScore, keywordScoreOver_eq,
    ← countP_dedup_eq_card_filter _ (fun w => 2 < w.length ∧ w.data <:+: (haystack tool).data),
    hP]

/-- C2: the scored tools are sorted by score descending, the sort is a
permutation of the scored list, and every score class (the tools sharing
any fixed score) appears in the output in exactly its fetch-order
relative order (stable sort, no secondary key). -/
theorem claim_stable_descending_sort (fetched : List Tool) (task : String)
    (cats : Option (List String)) (budget : Option String) :
    (sortDescByScore (scoredList fetched task cats budget)).Pairwise
        (fun a b => b.1 ≤ a.1)
    ∧ (sortDescByScore (scoredList fetched task cats budget)).Perm
        (scoredList fetched task cats budget)
    ∧ ∀ s : Int,
        (sortDescByScore (scoredList fetched task cats budget)).filter
            (fun y => y.1 == s)
          = (scoredList fetched task cats budget).filter (fun y => y.1 == s) :=
  ⟨sortDescByScore_pairwise _, sortDescByScore_perm _,
    fun s => sortDescByScore_filter _ s⟩

/-- C9: recommendation scoring is deterministic. The embedding is a pure
function (first conjunct), and the only unspecified behaviour in the
source — the enumeration order of the Python word `set` — cannot change
any score: the keyword loop is invariant under permutation of the word
list (second conjunct). -/
theorem claim_recommend_deterministic :
    (∀ (fetched : List Tool) (task : String) (cats : Option (List String))
        (budget : Option String),
       recommendTools fetched task cats budget
         = recommendTools fetched task cats budget)
    ∧ ∀ (tool : Tool) (words1 words2 : List String), words1.Perm words2 →
        keywordScoreOver words1 tool = keywordScoreOver words2 tool := by
  refine ⟨fun _ _ _ _ => rfl, fun tool w1 w2 h => ?_⟩
  rw [keywordScoreOver_eq, keywordScoreOver_eq, h.countP_eq]

/-- Witness for C9 at a concrete permuted pair of word lists. -/
theorem claim_recommend_deterministic_witness :
    keywordScoreOver ["code", "ai"] codingTool
      = keywordScoreOver ["ai", "code"] codingTool :=
  claim_recommend_deterministic.2 codingTool ["code", "ai"] ["ai", "code"]
    (List.Perm.swap ("ai") ("code") [])

/-- C10: at the list endpoint an empty-string value behaves as an absent
value: `q=""` applies no text filtering, and `category=""` or
`pricing=""` contribute nothing to the store filter. -/
theorem claim_empty_string_params :
    (∀ tools : List Tool, applyTextSearch (some "") tools = tools)
    ∧ (∀ tools : List Tool, applyTextSearch none tools = tools)
    ∧ (∀ pricing : Option String,
        buildMongoFilter (some "") pricing = buildMongoFilter none pricing)
    ∧ ∀ category : Option String,
        buildMongoFilter category (some "") = buildMongoFilter category none := by
  refine ⟨fun tools => ?_, fun tools => rfl, fun pricing => ?_, fun category => ?_⟩
  · simp [applyTextSearch]
  · simp [buildMongoFilter]
  · simp [buildMongoFilter]

/-- C8: whenever the store gateway raises during POST /api/tools,
GET /api/tools or GET /api/recommend, the handler returns HTTP 500 whose
detail is the exception's string rendering, and nothing else (no partial
result) is returned. -/
theorem claim_store_error_500 :
    (∀ e : String,
       addToolHandler (.error e) = .error { status := 500, detail := e })
    ∧ (∀ (store : MongoFilter → Nat → Except String (List Tool))
        (q category pricing : Option String) (limit : Nat) (e : String),
        store (buildMongoFilter category pricing) limit = .error e →
        listToolsHandler store q category pricing limit
          = .error { status := 500, detail := e })
    ∧ ∀ (store : MongoFilter → Nat → Except String (List Tool))
        (task : String) (cats : Option (List String)) (budget : Option String)
        (e : String),
        store emptyFilter 200 = .error e →
        recommendHandler store task cats budget
          = .error { status := 500, detail := e } := by
  refine ⟨fun e => rfl, ?_, ?_⟩
  · intro store q c p lim e h
    simp [listToolsHandler, h]
  · intro store task cats budget e h
    simp [recommendHandler, h]

/-- Witness for C8: a store that raises aborts all three handlers with a
500 carrying the exception message. -/
theorem claim_store_error_500_witness :
    addToolHandler (.error ("database is down"))
      = .error { status := 500, detail := "database is down" }
    ∧ listToolsHandler failingStore none none none 50
      = .error { status := 500, detail := "database is down" }
    ∧ recommendHandler failingStore ("summarize") none none
      = .error { status := 500, detail := "database is down" } :=
  ⟨claim_store_error_500.1 ("database is down"),
   claim_store_error_500.2.1 failingStore none none none 50
     ("database is down") rfl,
   claim_store_error_500.2.2 failingStore ("summarize") none none
     ("database is down") rfl⟩

/-- C3: with a non-empty categories list supplied, a tool whose
categories case-insensitively meet some requested category gains 3 and
every other tool loses 1; the concrete example `categories=["design"]`
against a tool with categories `["coding"]`, no keyword match and no
budget scores exactly -1; and in the sorted output a -1-scored entry sits
strictly after every entry scoring at least 0. -/
theorem claim_category_boost_penalty :
    (∀ (task : String) (budget : Option String) (tool : Tool) (c : String)
        (cs : List String),
       scoreTool task (some (c :: cs)) budget tool
         = scoreTool task none budget tool
           + (if categoryMatch (c :: cs) tool then 3 else -1))
    ∧ scoreTool ("design a logo") (some ["design"]) none codingTool = -1
    ∧ ∀ (scored : List (Int × Tool)) (i j : Nat)
        (hi : i < (sortDescByScore scored).length)
        (hj : j < (sortDescByScore scored).length),
        ((sortDescByScore scored).get ⟨i, hi⟩).1 = -1 →
        0 ≤ ((sortDescByScore scored).get ⟨j, hj⟩).1 → j < i := by
  refine ⟨?_, by decide, ?_⟩
  · intro task budget tool c cs
    by_cases h : categoryMatch (c :: cs) tool
    · simp [scoreTool, categoryAdj, h]
      ring
    · simp [scoreTool, categoryAdj, h]
      ring
  · intro scored i j hi hj h1 h0
    by_contra hcon
    push_neg at hcon
    have hp := sortDescByScore_pairwise scored
    rw [List.pairwise_iff_get] at hp
    rcases Nat.eq_or_lt_of_le hcon with heq | hlt
    · subst heq
      have hfin : (⟨i, hi⟩ : Fin (sortDescByScore scored).length) = ⟨i, hj⟩ := rfl
      rw [hfin] at h1
      omega
    · have := hp ⟨i, hi⟩ ⟨j, hj⟩ hlt
      omega

/-- Witness for C3: a concrete category mismatch costs 1, and in the
concrete sorted list `[(0, t), (-1, t)]` the -1 entry at index 1 sits
after the 0 entry at index 0. -/
theorem claim_category_boost_penalty_witness :
    (scoreTool ("design a logo") (some ["design"]) none codingTool
       = scoreTool ("design a logo") none none codingTool
         + (if categoryMatch ["design"] codingTool then 3 else -1))
    ∧ (0 : Nat) < 1 :=
  ⟨claim_category_boost_penalty.1 ("design a logo") none codingTool ("design") [],
   claim_category_boost_penalty.2.2 [((-1 : Int), codingTool), (0, codingTool)]
     1 0 (by decide) (by decide) (by decide) (by decide)⟩

/-- C4: with a non-empty budget supplied, a tool gains exactly 2 exactly
when its pricing equals the budget (case-sensitive); hence of two tools
tying on every other component, the budget-matching one is ranked
strictly ahead of the other even when the other was fetched first. -/
theorem claim_budget_boost :
    (∀ (task : String) (cats : Option (List String)) (b : String) (tool : Tool),
       b ≠ "" →
       scoreTool task cats (some b) tool
         = scoreTool task cats none tool + (if tool.pricing = b then 2 else 0))
    ∧ ∀ (task : String) (cats : Option (List String)) (b : String) (t1 t2 : Tool),
        b ≠ "" → t1.pricing = b → t2.pricing ≠ b →
        scoreTool task cats none t1 = scoreTool task cats none t2 →
        recommendTools [t2, t1] task cats (some b) = [t1, t2] := by
  have hadj : ∀ (b : String) (tool : Tool), b ≠ "" →
      budgetAdj (some b) tool = if tool.pricing = b then 2 else 0 := by
    intro b tool hb
    by_cases h : tool.pricing = b
    · simp [budgetAdj, hb, h]
    · simp [budgetAdj, hb, h]
  have hmain : ∀ (task : String) (cats : Option (List String)) (b : String)
      (tool : Tool), b ≠ "" →
      scoreTool task cats (some b) tool
        = scoreTool task cats none tool + (if tool.pricing = b then 2 else 0) := by
    intro task cats b tool hb
    rw [scoreTool, scoreTool, hadj b tool hb]
    simp only [budgetAdj]
    ring
  refine ⟨hmain, ?_⟩
  intro task cats b t1 t2 hb ht1 ht2 hbase
  have e1 : scoreTool task cats (some b) t1 = scoreTool task cats none t1 + 2 := by
    rw [hmain task cats b t1 hb, if_pos ht1]
  have e2 : scoreTool task cats (some b) t2 = scoreTool task cats none t2 := by
    rw [hmain task cats b t2 hb, if_neg ht2]
    ring
  have hlt : scoreTool task cats (some b) t2 < scoreTool task cats (some b) t1 := by
    rw [e1, e2, hbase]
    omega
  simp only [recommendTools, scoredList, List.map_cons, List.map_nil,
    sortDescByScore, insertDesc, if_pos hlt, List.take_cons, List.take_nil]
  rfl

/-- Witness for C4: concrete tools tying on every non-budget component,
where the `pricing="freemium"` tool beats the fetch-order-first other. -/
theorem claim_budget_boost_witness :
    (scoreTool ("chat") none (some "freemium") pdfTool
       = scoreTool ("chat") none none pdfTool
         + (if pdfTool.pricing = "freemium" then 2 else 0))
    ∧ recommendTools [codingTool, pdfTool] ("chat") none (some "freemium")
        = [pdfTool, codingTool] :=
  ⟨claim_budget_boost.1 ("chat") none ("freemium") pdfTool (by decide),
   claim_budget_boost.2 ("chat") none ("freemium") pdfTool codingTool
     (by decide) (by decide) (by decide) (by decide)⟩

/-- C5: with a non-empty query string, a fetched tool is kept by the
list endpoint exactly when the lower-cased query is a substring of its
lower-cased name, description, or some lower-cased tag (and appears in
the result whenever it is); with the query absent, the fetched set is
returned unchanged. -/
theorem claim_text_search_filter :
    (∀ (q : String) (tools : List Tool) (t : Tool),
       t ∈ applyTextSearch (some q) tools ↔
         t ∈ tools
           ∧ ((pyLower q).data <:+: (pyLower t.name).data
              ∨ (pyLower q).data <:+: (pyLower t.description).data
              ∨ ∃ tag ∈ t.tags, (pyLower q).data <:+: (pyLower tag).data))
    ∧ ∀ tools : List Tool, applyTextSearch none tools = tools := by
  refine ⟨?_, fun tools => rfl⟩
  intro q tools t
  rcases eq_or_ne q "" with hq | hq
  · subst hq
    have h1 : applyTextSearch (some "") tools = tools := by
      simp [applyTextSearch]
    rw [h1]
    constructor
    · intro ht
      exact ⟨ht, Or.inl List.nil_infix⟩
    · exact fun h => h.1
  · simp only [applyTextSearch, if_neg hq]
    rw [List.mem_filter]
    simp only [matchesQuery, strContains, Bool.or_eq_true, decide_eq_true_eq,
      List.any_eq_true, and_congr_right_iff]
    exact fun _ => or_assoc

example : pdfTool ∈ applyTextSearch (some "pdf") [pdfTool] := by decide

/-- C6: the recommendation endpoint fetches with the empty store filter
and limit 200, and returns the first 10 of the sorted list with no score
floor: at most 10 tools come back, and when at most 10 were fetched every
fetched tool — whatever its score, negative included — is in the result. -/
theorem claim_recommend_fetch_and_topk :
    ∀ (store : MongoFilter → Nat → Except String (List Tool))
      (task : String) (cats : Option (List String)) (budget : Option String)
      (fetched : List Tool),
      store emptyFilter 200 = .ok fetched →
      recommendHandler store task cats budget
          = .ok (recommendTools fetched task cats budget)
        ∧ (recommendTools fetched task cats budget).length
            = min 10 fetched.length
        ∧ (recommendTools fetched task cats budget).length ≤ 10
        ∧ (fetched.length ≤ 10 →
            ∀ t ∈ fetched, t ∈ recommendTools fetched task cats budget) := by
  intro store task cats budget fetched hstore
  have hperm := sortDescByScore_perm (scoredList fetched task cats budget)
  have hlen2 : (sortDescByScore (scoredList fetched task cats budget)).length
      = fetched.length := by
    rw [hperm.length_eq]
    simp [scoredList]
  refine ⟨?_, ?_, ?_, ?_⟩
  · simp [recommendHandler, hstore]
  · simp only [recommendTools, List.length_map, List.length_take, hlen2]
  · simp only [recommendTools, List.length_map, List.length_take]
    exact Nat.min_le_left 10 _
  · intro hlen t ht
    have htake : (sortDescByScore (scoredList fetched task cats budget)).take 10
        = sortDescByScore (scoredList fetched task cats budget) :=
      List.take_of_length_le (by omega)
    rw [recommendTools, htake]
    have hmem : (scoreTool task cats budget t, t)
        ∈ scoredList fetched task cats budget :=
      List.mem_map.mpr ⟨t, ht, rfl⟩
    exact List.mem_map.mpr ⟨_, hperm.mem_iff.mpr hmem, rfl⟩

/-- Witness for C6: a one-tool fetch whose only tool scores -1 and is
still returned. -/
theorem claim_recommend_fetch_and_topk_witness :
    recommendHandler oneToolStore ("design a logo") (some ["design"]) none
      = .ok (recommendTools [codingTool] ("design a logo") (some ["design"]) none)
    ∧ codingTool ∈ recommendTools [codingTool] ("design a logo") (some ["design"]) none :=
  ⟨(claim_recommend_fetch_and_topk oneToolStore ("design a logo")
      (some ["design"]) none [codingTool] rfl).1,
   (claim_recommend_fetch_and_topk oneToolStore ("design a logo")
      (some ["design"]) none [codingTool] rfl).2.2.2 (by decide) codingTool
     (by decide)⟩

/-- C7: the filter builder yields the categories-membership clause when
category is supplied, the pricing-equality clause when pricing is
supplied, their conjunction when both are, and the match-all empty filter
when neither is; so `category=X&pricing=Y` keeps exactly the tools whose
stored categories contain X (case-sensitively) and whose pricing equals Y. -/
theorem claim_filter_builder :
    (∀ (c p : String) (t : Tool), c ≠ "" → p ≠ "" →
       (filterMatches (buildMongoFilter (some c) (some p)) t = true ↔
         c ∈ t.categories ∧ t.pricing = p))
    ∧ (∀ (c : String) (t : Tool), c ≠ "" →
       (filterMatches (buildMongoFilter (some c) none) t = true ↔
         c ∈ t.categories))
    ∧ (∀ (p : String) (t : Tool), p ≠ "" →
       (filterMatches (buildMongoFilter none (some p)) t = true ↔
         t.pricing = p))
    ∧ (∀ t : Tool, filterMatches (buildMongoFilter none none) t = true)
    ∧ buildMongoFilter none none = emptyFilter := by
  refine ⟨?_, ?_, ?_, fun t => rfl, rfl⟩
  · intro c p t hc hp
    simp [filterMatches, buildMongoFilter, hc, hp]
  · intro c t hc
    simp [filterMatches, buildMongoFilter, hc]
  · intro p t hp
    simp [filterMatches, buildMongoFilter, hp]

/-- Witness for C7 at a concrete category, pricing and tool. -/
theorem claim_filter_builder_witness :
    filterMatches (buildMongoFilter (some "coding") (some "paid")) codingTool
      = true :=
  (claim_filter_builder.1 ("coding") ("paid") codingTool (by decide)
    (by decide)).mpr ⟨by decide, by decide⟩
